import Mathlib

/-!
Verification of the `webcrawler` repository (Python) against its
natural-language specification.

The Python code is shallowly embedded: Python `str` values are modeled as
`List Char` (`Str` below), Python `float` as `ℚ` (the values manipulated by
the claims are exact decimals), Python `set` as a list with membership
semantics, and the stateful classes (`WebCrawler`, `DelayManager`,
`ProxyRotator`, `RobotsTxtParser`) as explicit state records with pure
transition functions.  Network fetches performed by `WebCrawler.crawl_page`
are abstracted by an oracle `fetch : Str → PageResult` supplying, per URL,
the fields of the result record that the crawl loop inspects.
-/

namespace Webcrawler

/-- Python `str`, modeled as its sequence of characters. -/
abbrev Str := List Char

/-- Python `str.strip()`: remove leading and trailing whitespace. -/
def pyStrip (s : Str) : Str :=
  ((s.dropWhile Char.isWhitespace).reverse.dropWhile Char.isWhitespace).reverse

/-- Python `str.lower()` (ASCII case folding suffices for the modeled inputs). -/
def pyLower (s : Str) : Str := s.map Char.toLower

/-- Python `s.split(c, 1)` for a separator known to occur at most once of
interest: the part before the first occurrence of `c` and the part after it
(the whole string and `[]` when `c` does not occur). -/
def splitFirst (c : Char) (s : Str) : Str × Str :=
  (s.takeWhile (fun x => x ≠ c), (s.dropWhile (fun x => x ≠ c)).drop 1)

/-- Result of CPython `urllib.parse.urlsplit`: the five components
`(scheme, netloc, path, query, fragment)`.  The `params` component of
`urlparse` (a `;`-suffix of the last path segment) is not modeled; no input
appearing in the claims contains `;`. -/
structure SplitResult where
  scheme : Str
  netloc : Str
  path : Str
  query : Str
  fragment : Str
deriving DecidableEq, Repr

/-- Characters allowed in a URL scheme after the leading letter
(CPython `scheme_chars`). -/
def schemeChars (c : Char) : Bool :=
  c.isAlpha || c.isDigit || c = '+' || c = '-' || c = '.'

/-- Models CPython `urllib.parse.urlsplit(url, scheme, allow_fragments=True)`.
Faithful to `Lib/urllib/parse.py`: split a leading `scheme:` when the prefix
before the first `:` is a nonempty run of scheme characters starting with a
letter; split a `//netloc` up to the next `/`, `?` or `#`; split the fragment
at the first `#`; split the query at the first `?`.  The stdlib `ValueError`
on malformed IPv6 brackets and the WHATWG control-character stripping concern
inputs outside the modeled domain and are not modeled. -/
def urlsplit (url : Str) (scheme : Str) : SplitResult :=
  let i := (url.takeWhile (fun c => c ≠ ':')).length
  let p1 : Str × Str :=
    if i < url.length ∧ 0 < i ∧ (url.headD ' ').isAlpha ∧ (url.take i).all schemeChars then
      (pyLower (url.take i), url.drop (i + 1))
    else
      (scheme, url)
  let scheme := p1.1
  let url := p1.2
  let p2 : Str × Str :=
    if url.take 2 = ['/', '/'] then
      let rest := url.drop 2
      (rest.takeWhile (fun c => ¬ (c = '/' ∨ c = '?' ∨ c = '#')),
       rest.dropWhile (fun c => ¬ (c = '/' ∨ c = '?' ∨ c = '#')))
    else
      ([], url)
  let netloc := p2.1
  let url := p2.2
  let p3 : Str × Str := if '#' ∈ url then splitFirst '#' url else (url, [])
  let url := p3.1
  let fragment := p3.2
  let p4 : Str × Str := if '?' ∈ url then splitFirst '?' url else (url, [])
  ⟨scheme, netloc, p4.1, p4.2, fragment⟩

/-- Models CPython `urllib.parse.urlunsplit`. -/
def urlunsplit (scheme netloc path query fragment : Str) : Str :=
  let url := path
  let url :=
    if netloc ≠ [] ∨ (url ≠ [] ∧ url.take 2 = ['/', '/']) then
      let url := if url ≠ [] ∧ url.take 1 ≠ ['/'] then '/' :: url else url
      '/' :: '/' :: (netloc ++ url)
    else url
  let url := if scheme ≠ [] then scheme ++ ':' :: url else url
  let url := if query ≠ [] then url ++ '?' :: query else url
  let url := if fragment ≠ [] then url ++ '#' :: fragment else url
  url

/-- CPython `uses_relative`: schemes for which relative resolution is defined. -/
def usesRelative : List Str :=
  [[], "ftp".toList, "http".toList, "gopher".toList, "nntp".toList, "imap".toList,
   "wais".toList, "file".toList, "https".toList, "shttp".toList, "mms".toList,
   "prospero".toList, "rtsp".toList, "rtspu".toList, "sftp".toList, "svn".toList,
   "svn+ssh".toList, "ws".toList, "wss".toList]

/-- CPython `uses_netloc`: schemes that carry a network location. -/
def usesNetloc : List Str :=
  [[], "ftp".toList, "http".toList, "gopher".toList, "nntp".toList, "telnet".toList,
   "imap".toList, "wais".toList, "file".toList, "mms".toList, "https".toList,
   "shttp".toList, "snews".toList, "prospero".toList, "rtsp".toList, "rtspu".toList,
   "rsync".toList, "svn".toList, "svn+ssh".toList, "sftp".toList, "nfs".toList,
   "git".toList, "git+ssh".toList, "ws".toList, "wss".toList, "itms-services".toList]

/-- Python `segments[1:-1] = filter(None, segments[1:-1])`: drop empty strings
from the segment list, keeping the first and last elements untouched. -/
def filterMiddle (segs : List Str) : List Str :=
  match segs with
  | [] => []
  | [a] => [a]
  | a :: rest => a :: ((rest.dropLast.filter (fun x => x ≠ [])) ++ [rest.getLastD []])

/-- The dot-segment resolution loop of CPython `urljoin`: `..` pops the last
resolved segment (no-op on empty), `.` is skipped, anything else is appended. -/
def resolveSegments (segs : List Str) : List Str :=
  segs.foldl
    (fun acc seg =>
      if seg = ['.', '.'] then acc.dropLast
      else if seg = ['.'] then acc
      else acc ++ [seg])
    []

/-- Models CPython `urllib.parse.urljoin(base, url)` (`allow_fragments=True`),
faithful to `Lib/urllib/parse.py`, modulo the unmodeled `params` component
(relevant only to inputs containing `;`). -/
def urljoin (base url : Str) : Str :=
  if base = [] then url
  else if url = [] then base
  else
    let b := urlsplit base []
    let u := urlsplit url b.scheme
    if u.scheme ≠ b.scheme ∨ u.scheme ∉ usesRelative then url
    else if u.scheme ∈ usesNetloc ∧ u.netloc ≠ [] then
      urlunsplit u.scheme u.netloc u.path u.query u.fragment
    else
      let netloc := if u.scheme ∈ usesNetloc then b.netloc else u.netloc
      if u.path = [] then
        let query := if u.query = [] then b.query else u.query
        urlunsplit u.scheme netloc b.path query u.fragment
      else
        let baseParts := b.path.splitOn '/'
        let baseParts := if baseParts.getLastD [] ≠ [] then baseParts.dropLast else baseParts
        let segments :=
          if u.path.take 1 = ['/'] then u.path.splitOn '/'
          else filterMiddle (baseParts ++ u.path.splitOn '/')
        let resolved := resolveSegments segments
        let resolved :=
          if segments.getLastD [] = ['.'] ∨ segments.getLastD [] = ['.', '.'] then
            resolved ++ [[]]
          else resolved
        let path := List.intercalate ['/'] resolved
        let path := if path = [] then ['/'] else path
        urlunsplit u.scheme netloc path u.query u.fragment

/-- Models `URLValidator.normalize_url` (src/webcrawler/utils.py, lines
88-123): resolve against the base with `urljoin`, re-parse, rebuild as
`scheme://netloc path` plus `?query` when the query is nonempty, and drop the
final character when the rebuilt string ends in `/` and the parsed path is
longer than one character.  The `except` clause of the source converts
exceptions of the stdlib parser into `InvalidURLError`; within the modeled
input domain the parser is total, so the error branch of the `Except` is
never taken. -/
def normalize_url (url base_url : Str) : Except Str Str :=
  let absolute_url := urljoin base_url url
  let parsed := urlsplit absolute_url []
  let normalized := parsed.scheme ++ ':' :: '/' :: '/' :: parsed.netloc ++ parsed.path
  let normalized := if parsed.query ≠ [] then normalized ++ '?' :: parsed.query else normalized
  let normalized :=
    if normalized.getLast? = some '/' ∧ 1 < parsed.path.length then normalized.dropLast
    else normalized
  Except.ok normalized

/-! ### RobotsTxtParser (src/webcrawler/utils.py, lines 230-293)

The parser state reduced to the `disallowed_paths` collection: the only other
field, `crawl_delay`, is written by the `crawl-delay` branch and read by
nobody relevant to the claims (the spec itself records it as advisory only),
and that branch does not touch `disallowed_paths`.  The Python `set` is
modeled as a list with membership semantics. -/

/-- One iteration of the `for line in content.split('\n')` loop of
`RobotsTxtParser._parse_robots_txt`.  The accumulator carries the
`disallowed_paths` collected so far and the `applies_to_us` flag. -/
def parseRobotsLine (ua : Str) (st : List Str × Bool) (line : Str) : List Str × Bool :=
  let line := pyStrip line
  if line = [] ∨ line.take 1 = ['#'] then st
  else if ':' ∈ line then
    let directive := pyLower (pyStrip (splitFirst ':' line).1)
    let value := pyStrip (splitFirst ':' line).2
    if directive = ("user-agent").toList then
      (st.1, pyLower value = ['*'] ∨ pyLower value = ua)
    else if st.2 then
      if directive = ("disallow").toList then
        if value ≠ [] then (st.1 ++ [value], st.2) else st
      else st
    else st
  else st

/-- Models `RobotsTxtParser._parse_robots_txt`: the `disallowed_paths`
recorded for a robots.txt body and a (lowered) configured user agent. -/
def parse_robots_txt (content : Str) (user_agent : Str) : List Str :=
  ((content.splitOn '\n').foldl (parseRobotsLine (pyLower user_agent)) ([], false)).1

/-- Models `RobotsTxtParser.can_crawl` (src/webcrawler/utils.py, lines
280-293): false as soon as the path starts with one of the recorded
disallowed prefixes, true otherwise. -/
def can_crawl (disallowed_paths : List Str) (url_path : Str) : Bool :=
  disallowed_paths.all (fun d => ! d.isPrefixOf url_path)

/-! ### DelayManager, adaptive strategy (src/webcrawler/anti_detection.py,
lines 250-338)

Response times and delays are `ℚ` (the Python floats involved in the claims
are exact small decimals).  The wall-clock bookkeeping of `wait`
(`_last_request_time`, the actual `time.sleep`) is real-time behavior outside
the state modeled here; the modeled output of `wait` is the computed target
delay together with the updated manager state. -/

/-- State of a `DelayManager` relevant to the adaptive strategy. -/
structure DelayManagerState where
  base_delay : ℚ
  response_times : List ℚ
  request_count : ℕ
deriving DecidableEq, Repr

/-- The window update of `DelayManager._calculate_adaptive_delay`: append the
sample when present, then `pop(0)` once if the length exceeds 10. -/
def push_response_time (times : List ℚ) (response_time : Option ℚ) : List ℚ :=
  match response_time with
  | none => times
  | some t =>
    let times := times ++ [t]
    if 10 < times.length then times.drop 1 else times

/-- Models `DelayManager._calculate_adaptive_delay` (lines 304-331): returns
the computed delay together with the updated response-time window. -/
def calculate_adaptive_delay (base_delay : ℚ) (times : List ℚ) (response_time : Option ℚ) :
    ℚ × List ℚ :=
  let times := push_response_time times response_time
  if times = [] then (base_delay, times)
  else
    let avg := times.sum / (times.length : ℚ)
    if 3 < avg then (base_delay * 2, times)
    else if 1 < avg then (base_delay * (3 / 2), times)
    else (base_delay, times)

/-- Models `DelayManager.wait` under the adaptive strategy (lines 273-302):
compute the target delay, update the window, increment the request counter. -/
def wait_adaptive (s : DelayManagerState) (response_time : Option ℚ) : ℚ × DelayManagerState :=
  let r := calculate_adaptive_delay s.base_delay s.response_times response_time
  (r.1, { s with response_times := r.2, request_count := s.request_count + 1 })

/-! ### ProxyRotator (src/webcrawler/anti_detection.py, lines 126-247)

A proxy dictionary is identified by its key `str(proxy)`, which is what both
the failed set and the claims discriminate on; the pool is the ordered list of
keys.  The `itertools.cycle` iterator over the pool is modeled by its
position: `next(iterator)` yields `proxies[idx % len(proxies)]` and advances
`idx`.  The failed `set` is a list with membership semantics. -/

/-- State of a `ProxyRotator` with the cycle iterator made explicit. -/
structure ProxyRotatorState where
  proxies : List Str
  failed : List Str
  idx : ℕ
deriving DecidableEq, Repr

/-- Python `next(self._iterator)` on the cycle over a nonempty pool. -/
def cycle_next (s : ProxyRotatorState) : Str × ProxyRotatorState :=
  (s.proxies.getD (s.idx % s.proxies.length) [], { s with idx := s.idx + 1 })

/-- The `while attempts < max_attempts` loop of `ProxyRotator.get_next`,
parameterized by the remaining number of attempts.  When the attempts are
exhausted the source clears the failed set and returns one more
`next(self._iterator)`. -/
def get_next_loop : ℕ → ProxyRotatorState → Option Str × ProxyRotatorState
  | 0, s =>
    let s := { s with failed := ([] : List Str) }
    let r := cycle_next s
    (some r.1, r.2)
  | n + 1, s =>
    let r := cycle_next s
    if r.1 ∈ s.failed then get_next_loop n r.2 else (some r.1, r.2)

/-- Models `ProxyRotator.get_next` (lines 175-211): `None` on an empty pool,
otherwise up to one full pool length of skip-failed attempts followed by a
clear-and-retry. -/
def get_next (s : ProxyRotatorState) : Option Str × ProxyRotatorState :=
  if s.proxies = [] then (none, s)
  else get_next_loop s.proxies.length s

/-- Models `ProxyRotator.mark_failed`: add the proxy's key to the failed set. -/
def mark_failed (s : ProxyRotatorState) (p : Str) : ProxyRotatorState :=
  { s with failed := p :: s.failed }

/-! ### WebCrawler.crawl (src/webcrawler/crawler.py, lines 532-637)

The per-page operation `crawl_page` performs network requests; the crawl loop
inspects only the `error`, `links` and `status_code` fields of its returned
record, so `crawl_page` is abstracted by an oracle `fetch : Str → PageResult`
supplying those fields per URL.  Each `CrawlRecord` additionally carries the
depth of the frontier entry that produced it (a ghost field used to state the
depth-bound claim; the Python record has no such field). -/

/-- The fields of a `crawl_page` result record that the crawl loop reads. -/
structure PageResult where
  error : Bool
  links : List Str
  status_code : Option ℤ
deriving DecidableEq, Repr

/-- A result-log entry: the dequeued URL and depth plus the fetched record. -/
structure CrawlRecord where
  url : Str
  depth : ℕ
  result : PageResult
deriving DecidableEq, Repr

/-- The mutable state of one `WebCrawler.crawl` run. -/
structure CrawlState where
  url_queue : List (Str × ℕ)
  visited_urls : List Str
  crawled_data : List CrawlRecord
  pages_crawled : ℕ
  consecutive_failures : ℕ
  base_delay : ℚ
deriving DecidableEq, Repr

/-- The rate-limit escalation at the end of a loop iteration: on a 429 status
the delay manager's base delay is multiplied by 1.5.  (Skipped by the source
when the consecutive-failure `break` fires, mirrored by the caller below.) -/
def adjust429 (s : CrawlState) (page : PageResult) : CrawlState :=
  if page.status_code = some 429 then { s with base_delay := s.base_delay * (3 / 2) } else s

/-- Models the `while` loop of `WebCrawler.crawl` (lines 565-621), with an
explicit fuel argument bounding the number of iterations (every claim proved
below holds for every fuel value).  Per iteration: stop when the frontier is
empty or `max_pages` pages were crawled; pop an entry; discard it when the
URL is visited or the depth exceeds `max_depth`; otherwise mark visited,
fetch, append the result, and either increment the consecutive-failure
counter (breaking at 10) or reset it and enqueue unvisited links at
`depth + 1` when `depth < max_depth`. -/
def crawl_loop (fetch : Str → PageResult) (max_depth max_pages : ℕ) :
    ℕ → CrawlState → CrawlState
  | 0, s => s
  | fuel + 1, s =>
    match s.url_queue with
    | [] => s
    | (current_url, depth) :: rest =>
      if max_pages ≤ s.pages_crawled then s
      else if current_url ∈ s.visited_urls then
        crawl_loop fetch max_depth max_pages fuel { s with url_queue := rest }
      else if max_depth < depth then
        crawl_loop fetch max_depth max_pages fuel { s with url_queue := rest }
      else
        let page := fetch current_url
        let visited := current_url :: s.visited_urls
        let s1 : CrawlState :=
          { url_queue := rest
            visited_urls := visited
            crawled_data := s.crawled_data ++ [⟨current_url, depth, page⟩]
            pages_crawled := s.pages_crawled + 1
            consecutive_failures := if page.error then s.consecutive_failures + 1 else 0
            base_delay := s.base_delay }
        if page.error then
          if 10 ≤ s.consecutive_failures + 1 then s1
          else crawl_loop fetch max_depth max_pages fuel (adjust429 s1 page)
        else
          let new_entries :=
            if depth < max_depth then
              (page.links.filter (fun l => l ∉ visited)).map (fun l => (l, depth + 1))
            else []
          crawl_loop fetch max_depth max_pages fuel
            (adjust429 { s1 with url_queue := rest ++ new_entries } page)

/-- A fresh `WebCrawler.crawl` run: the initial state set up by `__init__`
(frontier `[(seed_url, 0)]`, everything else empty) run through the loop. -/
def crawl (fetch : Str → PageResult) (max_depth max_pages fuel : ℕ) (seed_url : Str)
    (delay : ℚ) : CrawlState :=
  crawl_loop fetch max_depth max_pages fuel
    { url_queue := [(seed_url, 0)]
      visited_urls := []
      crawled_data := []
      pages_crawled := 0
      consecutive_failures := 0
      base_delay := delay }

/-! ### Constructor validation (src/webcrawler/crawler.py, lines 70-284, and
src/webcrawler/anti_detection.py, lines 432-478)

`WebCrawler.__init__` first builds the `AntiDetectionConfig` (whose
`_validate_config` raises `ValueError` on an unrecognized delay strategy) and
only then calls `WebCrawler._validate_config` (which raises
`ConfigurationError` on the remaining bad parameters, in source order). -/

/-- The exception, if any, raised while constructing a `WebCrawler`.
`valueError` is Python's builtin `ValueError` (not a subclass of the
package's `ConfigurationError`); messages are the source's literals, with the
interpolated tail of the scheme message omitted. -/
inductive InitError where
  | valueError : InitError
  | configurationError : Str → InitError
deriving DecidableEq, Repr

/-- Whether an optional raised exception is a `ConfigurationError`. -/
def isConfigurationError : Option InitError → Bool
  | some (InitError.configurationError _) => true
  | _ => false

/-- The four recognized delay strategies. -/
def valid_strategies : List Str :=
  [("fixed").toList, ("random").toList, ("exponential").toList, ("adaptive").toList]

/-- Models the validation performed while constructing a `WebCrawler`, in
source order: the `enable_anti_detection` strategy rewrite (lines 154-157),
then `AntiDetectionConfig._validate_config` (raising `ValueError` on a bad
strategy), then `WebCrawler._validate_config` (lines 268-284, raising
`ConfigurationError`).  Returns the first raised exception, or `none` when
construction succeeds. -/
def webcrawler_init_validate (seed_url : Str) (max_depth : ℤ) (delay : ℚ) (max_pages : ℤ)
    (delay_strategy : Str) (enable_anti_detection : Bool) : Option InitError :=
  let delay_strategy :=
    if enable_anti_detection ∧ delay_strategy = ("fixed").toList then ("adaptive").toList
    else delay_strategy
  if delay_strategy ∉ valid_strategies then some InitError.valueError
  else if seed_url = [] then
    some (InitError.configurationError ("Seed URL cannot be empty").toList)
  else if max_depth < 0 then
    some (InitError.configurationError ("Max depth cannot be negative").toList)
  else if delay < 0 then
    some (InitError.configurationError ("Delay cannot be negative").toList)
  else if max_pages ≤ 0 then
    some (InitError.configurationError ("Max pages must be positive").toList)
  else if ¬ (("http://").toList.isPrefixOf seed_url ∨ ("https://").toList.isPrefixOf seed_url) then
    some (InitError.configurationError ("Invalid seed URL scheme").toList)
  else none

/-! ### WebCrawler.get_summary (src/webcrawler/crawler.py, lines 765-792) -/

/-- Models the `'max_depth_reached'` entry of `WebCrawler.get_summary`: the
Python expression `max((0,) + tuple(len([p for p in crawled_data if not
p['error']]) - 1 for p in crawled_data if not p['error']))`, i.e. the maximum
of 0 and one copy of `S - 1` per successful page, where `S` is the number of
successful pages. -/
def max_depth_reached (crawled_data : List PageResult) : ℤ :=
  ((crawled_data.filter (fun p => ! p.error)).map
    (fun _ => ((crawled_data.filter (fun p => ! p.error)).length : ℤ) - 1)).foldl max 0

/-! ### Auxiliary definitions used by the theorems below -/

/-- Amended normalization contract (claim C8, corrected): the reconstruction
`scheme://netloc ++ path [++ '?' ++ query]` with the fragment stripped, where
the final-character strip of the source applies to the path when no query is
present, but to the query when one is present — in both cases only when the
path is longer than one character. -/
def normalize_spec_amended (url base_url : Str) : Str :=
  let p := urlsplit (urljoin base_url url) []
  if p.query = [] then
    let path :=
      if 1 < p.path.length ∧ p.path.getLast? = some '/' then p.path.dropLast else p.path
    p.scheme ++ ':' :: '/' :: '/' :: p.netloc ++ path
  else
    let query :=
      if 1 < p.path.length ∧ p.query.getLast? = some '/' then p.query.dropLast else p.query
    p.scheme ++ ':' :: '/' :: '/' :: p.netloc ++ p.path ++ '?' :: query

/-- Concrete fetch oracle: every URL fails (HTTP 500). -/
def fetchFail : Str → PageResult := fun _ => ⟨true, [], some 500⟩

/-- Concrete fetch oracle: every URL succeeds with no outgoing links. -/
def fetchOk : Str → PageResult := fun _ => ⟨false, [], some 200⟩

/-! ## Theorems -/

/-- C6: for every parsed robots.txt rule set and every path, `can_crawl`
returns true if and only if the path does not start with any recorded
disallowed prefix; in particular a `Disallow: /private` rule (under a
`User-agent: *` block) makes `can_crawl` false for `/private/page` and true
for `/public/page`. -/
theorem can_crawl_iff_no_disallowed (disallowed_paths : List Str) (url_path : Str) :
    (can_crawl disallowed_paths url_path = true ↔
      ∀ d ∈ disallowed_paths, ¬ d.isPrefixOf url_path) ∧
    can_crawl
      (parse_robots_txt ("User-agent: *\nDisallow: /private").toList
        ("WebCrawler/0.0.1 (Anti-Detection)").toList)
      ("/private/page").toList = false ∧
    can_crawl
      (parse_robots_txt ("User-agent: *\nDisallow: /private").toList
        ("WebCrawler/0.0.1 (Anti-Detection)").toList)
      ("/public/page").toList = true := by
  refine ⟨?_, by decide, by decide⟩
  simp [can_crawl, List.isPrefixOf_iff_prefix, Bool.eq_false_iff]

/-- Witness for C6: the equivalence applied to a concrete rule set and path. -/
theorem can_crawl_iff_witness :
    can_crawl [("/admin").toList] ("/blog/post").toList = true :=
  (can_crawl_iff_no_disallowed [("/admin").toList] ("/blog/post").toList).1.mpr
    (by decide)

/-- Auxiliary: the window returned by `_calculate_adaptive_delay` is the
pushed window, in every branch. -/
theorem calculate_adaptive_delay_snd (b : ℚ) (ts : List ℚ) (rt : Option ℚ) :
    (calculate_adaptive_delay b ts rt).2 = push_response_time ts rt := by
  simp only [calculate_adaptive_delay]
  split_ifs <;> rfl

/-- Auxiliary: `wait` under the adaptive strategy updates the window by
pushing the sample. -/
theorem wait_adaptive_response_times (s : DelayManagerState) (rt : Option ℚ) :
    ((wait_adaptive s rt).2).response_times = push_response_time s.response_times rt := by
  simp only [wait_adaptive]
  exact calculate_adaptive_delay_snd s.base_delay s.response_times rt

/-- Auxiliary: `wait` under the adaptive strategy does not change the base
delay. -/
theorem wait_adaptive_base_delay (s : DelayManagerState) (rt : Option ℚ) :
    ((wait_adaptive s rt).2).base_delay = s.base_delay := by
  simp only [wait_adaptive]

/-- C4: the adaptive delay window is capped at the 10 most recent samples;
the computed delay is `base·2` when the window mean exceeds 3, `base·1.5`
when it exceeds 1, and `base` otherwise (also `base` on an empty window); and
after three consecutive samples of 4.0s the next computed delay is
`2 · base_delay`. -/
theorem adaptive_delay_correct (base : ℚ) (times : List ℚ) (rt : ℚ)
    (h : times.length ≤ 10) :
    ((push_response_time times (some rt)).length ≤ 10 ∧
      push_response_time times (some rt) = (times ++ [rt]).drop (times.length + 1 - 10)) ∧
    (∀ sample : Option ℚ,
      (calculate_adaptive_delay base times sample).1 =
        (let w := push_response_time times sample
         if w = [] then base
         else if 3 < w.sum / (w.length : ℚ) then base * 2
         else if 1 < w.sum / (w.length : ℚ) then base * (3 / 2)
         else base)) ∧
    (calculate_adaptive_delay base [] none).1 = base ∧
    (let s1 := (wait_adaptive ⟨base, [], 0⟩ (some 4)).2
     let s2 := (wait_adaptive s1 (some 4)).2
     let s3 := (wait_adaptive s2 (some 4)).2
     s3.response_times = [4, 4, 4] ∧ (wait_adaptive s3 none).1 = 2 * base) := by
  have hcap : (push_response_time times (some rt)).length ≤ 10 := by
    simp only [push_response_time]
    split_ifs with h10
    · simp only [List.length_drop, List.length_append, List.length_cons, List.length_nil]
      omega
    · simp only [List.length_append, List.length_cons, List.length_nil] at h10 ⊢
      omega
  have hrecent : push_response_time times (some rt) =
      (times ++ [rt]).drop (times.length + 1 - 10) := by
    simp only [push_response_time]
    split_ifs with h10
    · simp only [List.length_append, List.length_cons, List.length_nil] at h10
      have h1 : times.length + 1 - 10 = 1 := by omega
      rw [h1]
    · simp only [List.length_append, List.length_cons, List.length_nil] at h10
      have h0 : times.length + 1 - 10 = 0 := by omega
      rw [h0, List.drop_zero]
  have hw3 : ((wait_adaptive ((wait_adaptive ((wait_adaptive
      (⟨base, [], 0⟩ : DelayManagerState) (some 4)).2) (some 4)).2) (some 4)).2).response_times
      = [4, 4, 4] := by
    simp only [wait_adaptive_response_times]
    rfl
  have hb3 : ((wait_adaptive ((wait_adaptive ((wait_adaptive
      (⟨base, [], 0⟩ : DelayManagerState) (some 4)).2) (some 4)).2) (some 4)).2).base_delay
      = base := by
    simp only [wait_adaptive_base_delay]
  refine ⟨⟨hcap, hrecent⟩, ?_, rfl, hw3, ?_⟩
  · intro sample
    simp only [calculate_adaptive_delay]
    split_ifs <;> rfl
  · show (wait_adaptive _ none).1 = 2 * base
    have key : ∀ s : DelayManagerState, s.response_times = [4, 4, 4] → s.base_delay = base →
        (wait_adaptive s none).1 = 2 * base := by
      intro s h1 h2
      simp only [wait_adaptive, calculate_adaptive_delay, push_response_time, h1, h2]
      norm_num
      simp [mul_comm]
    exact key _ hw3 hb3

/-- Witness for C4 at a concrete base delay, window and sample. -/
theorem adaptive_delay_witness :
    (calculate_adaptive_delay 1 [] none).1 = 1 :=
  (adaptive_delay_correct 1 [] 4 (by decide)).2.2.1

/-- Auxiliary: folding `max` from `a` over `n` copies of `c`. -/
theorem foldl_max_replicate (n : ℕ) (a c : ℤ) :
    (List.replicate n c).foldl max a = if n = 0 then a else max a c := by
  induction n generalizing a with
  | zero => simp
  | succ n ih =>
    rw [List.replicate_succ, List.foldl_cons, ih]
    rcases Nat.eq_zero_or_pos n with hn | hn
    · simp [hn]
    · have : n ≠ 0 := Nat.pos_iff_ne_zero.mp hn
      simp [this, max_assoc]

/-- C10: `get_summary`'s `'max_depth_reached'` entry equals `max 0 (S - 1)`
where `S` is the number of `PageResult`s whose error field is unset, and it
is determined solely by that count — any two result logs with the same
success count yield the same value, independently of traversal depths. -/
theorem max_depth_reached_eq (crawled_data : List PageResult) :
    (max_depth_reached crawled_data =
      max 0 (((crawled_data.filter (fun p => ! p.error)).length : ℤ) - 1)) ∧
    (∀ other : List PageResult,
      (other.filter (fun p => ! p.error)).length =
        (crawled_data.filter (fun p => ! p.error)).length →
      max_depth_reached other = max_depth_reached crawled_data) := by
  have key : ∀ l : List PageResult,
      max_depth_reached l = max 0 (((l.filter (fun p => ! p.error)).length : ℤ) - 1) := by
    intro l
    unfold max_depth_reached
    rw [List.map_const']
    rw [foldl_max_replicate]
    rcases Nat.eq_zero_or_pos (l.filter (fun p => ! p.error)).length with h0 | hpos
    · simp [h0]
    · have hne : (l.filter (fun p => ! p.error)).length ≠ 0 := Nat.pos_iff_ne_zero.mp hpos
      simp [hne]
  refine ⟨key crawled_data, ?_⟩
  intro other hlen
  rw [key other, key crawled_data, hlen]

/-- Witness for C10: two result logs with equal success counts but different
records get the same `'max_depth_reached'` value. -/
theorem max_depth_reached_witness :
    max_depth_reached [⟨false, [], some 200⟩, ⟨true, [], some 500⟩] =
      max_depth_reached [⟨false, [], none⟩] :=
  (max_depth_reached_eq [⟨false, [], none⟩]).2
    [⟨false, [], some 200⟩, ⟨true, [], some 500⟩] (by decide)

/-- Auxiliary: the element yielded by the cycle iterator over a nonempty pool
is a member of the pool. -/
theorem cycle_next_mem (s : ProxyRotatorState) (h : s.proxies ≠ []) :
    (cycle_next s).1 ∈ s.proxies := by
  have hlen : 0 < s.proxies.length := List.length_pos.mpr h
  have hlt : s.idx % s.proxies.length < s.proxies.length := Nat.mod_lt _ hlen
  simp only [cycle_next]
  rw [List.getD_eq_getElem _ _ hlt]
  exact List.getElem_mem hlt

/-- Auxiliary: the skip-failed loop of `get_next` always yields a proxy. -/
theorem get_next_loop_isSome (n : ℕ) (s : ProxyRotatorState) :
    ((get_next_loop n s).1).isSome = true := by
  induction n generalizing s with
  | zero => rfl
  | succ n ih =>
    simp only [get_next_loop]
    split_ifs with hmem
    · exact ih _
    · rfl

/-- Auxiliary: the proxy yielded by the skip-failed loop belongs to the pool
and is not in the failed set of the resulting state. -/
theorem get_next_loop_mem (n : ℕ) : ∀ (s : ProxyRotatorState), s.proxies ≠ [] → ∀ p : Str,
    (get_next_loop n s).1 = some p → p ∈ s.proxies ∧ p ∉ (get_next_loop n s).2.failed := by
  induction n with
  | zero =>
    intro s hne p hp
    simp only [get_next_loop, Option.some.injEq] at hp ⊢
    rw [← hp]
    exact ⟨cycle_next_mem _ hne, by simp [cycle_next]⟩
  | succ n ih =>
    intro s hne p hp
    simp only [get_next_loop] at hp ⊢
    split_ifs at hp ⊢ with hmem
    · exact ih ((cycle_next s).2) hne p hp
    · simp only [Option.some.injEq] at hp
      rw [← hp]
      exact ⟨cycle_next_mem _ hne, by simpa [cycle_next] using hmem⟩

/-- Auxiliary: when every pool member is in the failed set, the skip-failed
loop runs out of attempts, clears the failed set, and yields the pool element
at the advanced cycle position. -/
theorem get_next_loop_all_failed (n : ℕ) : ∀ (s : ProxyRotatorState), s.proxies ≠ [] →
    (∀ p ∈ s.proxies, p ∈ s.failed) →
    get_next_loop n s =
      (some (s.proxies.getD ((s.idx + n) % s.proxies.length) []),
       ⟨s.proxies, [], s.idx + n + 1⟩) := by
  induction n with
  | zero =>
    intro s hne hall
    rfl
  | succ n ih =>
    intro s hne hall
    have hmem : (cycle_next s).1 ∈ s.failed := hall _ (cycle_next_mem s hne)
    have h2 : (cycle_next s).2 = ⟨s.proxies, s.failed, s.idx + 1⟩ := rfl
    simp only [get_next_loop]
    rw [if_pos hmem, h2, ih ⟨s.proxies, s.failed, s.idx + 1⟩ hne hall]
    have e1 : s.idx + 1 + n = s.idx + (n + 1) := by omega
    simp only [e1]

/-- C5: for every `ProxyRotator` state with a nonempty pool, `get_next`
returns a proxy (never `None`); the returned proxy is a pool member absent
from the resulting failed set; and when every pool member is currently
failed, the failed set is cleared and the next pool member (at the current
cycle position) is returned. -/
theorem get_next_never_none (s : ProxyRotatorState) (h : s.proxies ≠ []) :
    ((get_next s).1).isSome = true ∧
    (∀ p, (get_next s).1 = some p → p ∈ s.proxies ∧ p ∉ (get_next s).2.failed) ∧
    ((∀ p ∈ s.proxies, p ∈ s.failed) →
      (get_next s).1 = some (s.proxies.getD (s.idx % s.proxies.length) []) ∧
      (get_next s).2.failed = []) := by
  have hgn : get_next s = get_next_loop s.proxies.length s := by
    simp only [get_next, h, if_neg, if_false]
  refine ⟨?_, ?_, ?_⟩
  · rw [hgn]; exact get_next_loop_isSome _ _
  · intro p hp
    rw [hgn] at hp ⊢
    exact get_next_loop_mem _ _ h p hp
  · intro hall
    rw [hgn, get_next_loop_all_failed _ _ h hall]
    simp only [Nat.add_mod_right, and_true]

/-- Witness for C5: a two-proxy pool with both proxies marked failed still
yields a proxy, and the failed set is cleared. -/
theorem get_next_never_none_witness :
    (get_next (mark_failed (mark_failed ⟨[("p1").toList, ("p2").toList], [], 0⟩
        ("p1").toList) ("p2").toList)).1 = some (("p1").toList) ∧
    (get_next (mark_failed (mark_failed ⟨[("p1").toList, ("p2").toList], [], 0⟩
        ("p1").toList) ("p2").toList)).2.failed = [] := by
  have := (get_next_never_none (mark_failed (mark_failed
      ⟨[("p1").toList, ("p2").toList], [], 0⟩ ("p1").toList) ("p2").toList)
      (by decide)).2.2 (by decide)
  simpa using this

/-- C9 counterexample: constructing a `WebCrawler` with an unrecognized delay
strategy (all other parameters valid) raises Python's `ValueError` from
`AntiDetectionConfig._validate_config`, not a `ConfigurationError` as the
claim states. -/
theorem invalid_strategy_raises_value_error :
    webcrawler_init_validate ("https://example.com").toList 3 1 100 ("bogus").toList false =
      some InitError.valueError ∧
    isConfigurationError
      (webcrawler_init_validate ("https://example.com").toList 3 1 100 ("bogus").toList false) =
      false := by
  constructor
  · rfl
  · rfl

/-- C9 (amended): with a recognized delay strategy, construction succeeds
exactly when the seed URL is nonempty with an http/https scheme, the depth
and delay are nonnegative, and the page budget is positive; every failure of
those checks raises a `ConfigurationError`; an unrecognized delay strategy
instead raises `ValueError`. -/
theorem webcrawler_init_validate_correct (seed_url : Str) (max_depth : ℤ) (delay : ℚ)
    (max_pages : ℤ) (delay_strategy : Str) (h : delay_strategy ∈ valid_strategies) :
    (webcrawler_init_validate seed_url max_depth delay max_pages delay_strategy false = none ↔
      (seed_url ≠ [] ∧ 0 ≤ max_depth ∧ 0 ≤ delay ∧ 0 < max_pages ∧
        (("http://").toList.isPrefixOf seed_url ∨ ("https://").toList.isPrefixOf seed_url))) ∧
    (webcrawler_init_validate seed_url max_depth delay max_pages delay_strategy false ≠ none →
      isConfigurationError
        (webcrawler_init_validate seed_url max_depth delay max_pages delay_strategy false) =
        true) ∧
    (∀ st, st ∉ valid_strategies →
      webcrawler_init_validate seed_url max_depth delay max_pages st false =
        some InitError.valueError) := by
  have e : ∀ st : Str, st ∈ valid_strategies →
      webcrawler_init_validate seed_url max_depth delay max_pages st false =
      (if seed_url = [] then
        some (InitError.configurationError ("Seed URL cannot be empty").toList)
      else if max_depth < 0 then
        some (InitError.configurationError ("Max depth cannot be negative").toList)
      else if delay < 0 then
        some (InitError.configurationError ("Delay cannot be negative").toList)
      else if max_pages ≤ 0 then
        some (InitError.configurationError ("Max pages must be positive").toList)
      else if ¬ (("http://").toList.isPrefixOf seed_url ∨
          ("https://").toList.isPrefixOf seed_url) then
        some (InitError.configurationError ("Invalid seed URL scheme").toList)
      else none) := by
    intro st hst
    simp only [webcrawler_init_validate, Bool.false_eq_true, false_and, if_false]
    rw [if_neg (not_not_intro hst)]
  refine ⟨?_, ?_, ?_⟩
  · rw [e delay_strategy h]
    split_ifs with h1 h2 h3 h4 h5
    · exact iff_of_false (by simp) (fun hc => hc.1 h1)
    · exact iff_of_false (by simp) (fun hc => absurd hc.2.1 (not_le.mpr h2))
    · exact iff_of_false (by simp) (fun hc => absurd hc.2.2.1 (not_le.mpr h3))
    · exact iff_of_false (by simp) (fun hc => absurd hc.2.2.2.1 (not_lt.mpr h4))
    · exact iff_of_true rfl ⟨h1, not_lt.mp h2, not_lt.mp h3, lt_of_not_le h4, h5⟩
    · exact iff_of_false (by simp) (fun hc => h5 hc.2.2.2.2)
  · rw [e delay_strategy h]
    split_ifs with h1 h2 h3 h4 h5
    · intro hne
      rfl
    · intro hne
      rfl
    · intro hne
      rfl
    · intro hne
      rfl
    · intro hne
      exact absurd rfl hne
    · intro hne
      rfl
  · intro st hst
    simp only [webcrawler_init_validate, Bool.false_eq_true, false_and, if_false]
    rw [if_pos hst]

/-- Witness for C9: a fully valid configuration raises no exception. -/
theorem webcrawler_init_validate_witness :
    webcrawler_init_validate ("https://example.com").toList 3 1 100 ("fixed").toList false =
      none :=
  (webcrawler_init_validate_correct ("https://example.com").toList 3 1 100 ("fixed").toList
    (by decide)).1.mpr ⟨by decide, by decide, by norm_num, by decide, by decide⟩

/-- C7 counterexample: resolving `"foo"` against the empty base yields a URL
with neither scheme nor host, yet `normalize_url` returns the string
`"://foo"` instead of failing with the invalid-URL error condition. -/
theorem normalize_url_missing_scheme_host_returns :
    (urlsplit (urljoin [] ("foo").toList) []).scheme = [] ∧
    (urlsplit (urljoin [] ("foo").toList) []).netloc = [] ∧
    normalize_url ("foo").toList [] = Except.ok (("://foo").toList) := by
  refine ⟨rfl, rfl, rfl⟩

/-- C7 (amended): `normalize_url` performs no scheme/host validation — even
when the resolved URL has no scheme or no host it succeeds, returning the
reconstructed string; the invalid-URL error corresponds only to exceptions of
the underlying stdlib parser, which absence of scheme or host never causes. -/
theorem normalize_url_no_scheme_host_check (url base_url : Str)
    (h : (urlsplit (urljoin base_url url) []).scheme = [] ∨
         (urlsplit (urljoin base_url url) []).netloc = []) :
    ∃ s, normalize_url url base_url = Except.ok s :=
  ⟨_, rfl⟩

/-- Witness for C7's amended statement at the counterexample input. -/
theorem normalize_url_no_scheme_host_check_witness :
    ∃ s, normalize_url ("foo").toList [] = Except.ok s :=
  normalize_url_no_scheme_host_check ("foo").toList [] (Or.inl (by decide))

/-- Auxiliary: the last element of an append is the last element of its
nonempty right part. -/
theorem getLast?_append_right (l1 l2 : Str) (h : l2 ≠ []) :
    (l1 ++ l2).getLast? = l2.getLast? := by
  induction l1 with
  | nil => rfl
  | cons a t ih =>
    rw [List.cons_append]
    have hne : t ++ l2 ≠ [] := by
      intro hc
      exact h (List.append_eq_nil.mp hc).2
    cases he : t ++ l2 with
    | nil => exact absurd he hne
    | cons b u =>
      rw [List.getLast?_cons_cons, ← he, ih]

/-- Auxiliary: dropping the last element of an append with a nonempty right
part drops it from the right part. -/
theorem dropLast_append_right (l1 l2 : Str) (h : l2 ≠ []) :
    (l1 ++ l2).dropLast = l1 ++ l2.dropLast :=
  List.dropLast_append_of_ne_nil l1 h

/-- Auxiliary: the last element of a cons with a nonempty tail. -/
theorem getLast?_cons_ne_nil (a : Char) (l : Str) (h : l ≠ []) :
    (a :: l).getLast? = l.getLast? := by
  cases l with
  | nil => exact absurd rfl h
  | cons b u => rw [List.getLast?_cons_cons]

/-- Auxiliary: dropping the last element of a cons with a nonempty tail. -/
theorem dropLast_cons_ne_nil (a : Char) (l : Str) (h : l ≠ []) :
    (a :: l).dropLast = a :: l.dropLast := by
  cases l with
  | nil => exact absurd rfl h
  | cons b u => rfl

/-- C8 counterexample: on `normalize_url("http://example.com/a?b=/",
"http://example.com")` the trailing-slash strip fires on the full
reconstructed string (path `/a` has length 2 > 1), removing the final
character of the query — the returned string is not the reconstruction with
its query intact, contradicting the claim. -/
theorem normalize_url_strips_query_slash :
    normalize_url ("http://example.com/a?b=/").toList ("http://example.com").toList =
      Except.ok (("http://example.com/a?b=").toList) ∧
    (urlsplit (urljoin ("http://example.com").toList ("http://example.com/a?b=/").toList)
      []).query = ("b=/").toList ∧
    (urlsplit (urljoin ("http://example.com").toList ("http://example.com/a?b=/").toList)
      []).path = ("/a").toList ∧
    ("http://example.com/a?b=").toList ≠ ("http://example.com/a").toList ++ '?' :: ("b=/").toList
    := by
  refine ⟨rfl, rfl, rfl, by decide⟩

/-- C8 (amended): on every input, `normalize_url` returns the resolution
reconstructed as `scheme://host/path[?query]` with the fragment stripped,
where the final-character strip applies to the path's trailing slash when no
query is present, but to the query's trailing slash when a query is present —
in both cases only when the path is longer than one character, so a query
ending in `/` is not returned intact whenever the path has length > 1. -/
theorem normalize_url_amended (url base_url : Str) :
    normalize_url url base_url = Except.ok (normalize_spec_amended url base_url) := by
  simp only [normalize_url, normalize_spec_amended]
  generalize urlsplit (urljoin base_url url) [] = p
  obtain ⟨sc, nl, pa, q, fr⟩ := p
  simp only [ne_eq]
  by_cases hq : q = []
  · subst hq
    simp only [not_true_eq_false, if_false, eq_self_iff_true, if_true]
    by_cases hlen : 1 < pa.length
    · have hpane : pa ≠ [] := by
        intro hc
        rw [hc] at hlen
        simp at hlen
      rw [getLast?_append_right _ _ hpane]
      by_cases hsl : pa.getLast? = some '/'
      · rw [if_pos ⟨hsl, hlen⟩, if_pos ⟨hlen, hsl⟩, dropLast_append_right _ _ hpane]
      · rw [if_neg (fun hc => hsl hc.1), if_neg (fun hc => hsl hc.2)]
    · rw [if_neg (fun hc => hlen hc.2), if_neg (fun hc => hlen hc.1)]
  · rw [if_pos hq, if_neg hq]
    have hqcons : ('?' :: q : Str) ≠ [] := by simp
    rw [getLast?_append_right _ _ hqcons, getLast?_cons_ne_nil _ _ hq]
    by_cases hcond : q.getLast? = some '/' ∧ 1 < pa.length
    · rw [if_pos hcond, if_pos ⟨hcond.2, hcond.1⟩, dropLast_append_right _ _ hqcons,
        dropLast_cons_ne_nil _ _ hq]
    · rw [if_neg hcond, if_neg (fun hc => hcond ⟨hc.2, hc.1⟩)]

/-- Auxiliary: appending a record for an unvisited URL preserves the
uniqueness invariant of the crawl loop (result-log URLs are distinct and all
lie in the visited set). -/
theorem nodup_invariant_step (c : List CrawlRecord) (v : List Str) (u : Str) (d : ℕ)
    (pg : PageResult) (h1 : (c.map CrawlRecord.url).Nodup)
    (h2 : ∀ r ∈ c, r.url ∈ v) (hu : u ∉ v) :
    ((c ++ [(⟨u, d, pg⟩ : CrawlRecord)]).map CrawlRecord.url).Nodup ∧
    (∀ r ∈ c ++ [(⟨u, d, pg⟩ : CrawlRecord)], r.url ∈ u :: v) := by
  constructor
  · rw [List.map_append]
    rw [List.nodup_append]
    refine ⟨h1, List.nodup_singleton _, ?_⟩
    intro x hx hx1
    simp only [List.map_cons, List.map_nil, List.mem_singleton] at hx1
    obtain ⟨r, hrc, hru⟩ := List.mem_map.mp hx
    rw [hx1] at hru
    exact hu (hru ▸ h2 r hrc)
  · intro r hr
    rcases List.mem_append.mp hr with hr | hr
    · exact List.mem_cons_of_mem _ (h2 r hr)
    · rw [List.mem_singleton.mp hr]
      exact List.mem_cons_self _ _

/-- Auxiliary: the crawl loop preserves, for any fuel, the invariant that the
result-log URLs are pairwise distinct and all recorded in the visited set. -/
theorem crawl_loop_nodup (fetch : Str → PageResult) (max_depth max_pages : ℕ) (fuel : ℕ) :
    ∀ s : CrawlState,
      (s.crawled_data.map CrawlRecord.url).Nodup →
      (∀ r ∈ s.crawled_data, r.url ∈ s.visited_urls) →
      ((crawl_loop fetch max_depth max_pages fuel s).crawled_data.map CrawlRecord.url).Nodup ∧
      (∀ r ∈ (crawl_loop fetch max_depth max_pages fuel s).crawled_data,
        r.url ∈ (crawl_loop fetch max_depth max_pages fuel s).visited_urls) := by
  induction fuel with
  | zero =>
    intro s h1 h2
    exact ⟨h1, h2⟩
  | succ fuel ih =>
    intro s h1 h2
    obtain ⟨q, v, c, p, cf, b⟩ := s
    cases q with
    | nil => exact ⟨h1, h2⟩
    | cons hd tl =>
      obtain ⟨u, d⟩ := hd
      simp only at h1 h2
      simp only [crawl_loop, adjust429]
      split_ifs with hpg hvis
      all_goals first
        | exact ⟨h1, h2⟩
        | exact ih _ h1 h2
        | exact nodup_invariant_step c v u d (fetch u) h1 h2 hvis
        | exact ih _ (nodup_invariant_step c v u d (fetch u) h1 h2 hvis).1
            (nodup_invariant_step c v u d (fetch u) h1 h2 hvis).2

/-- C1: in every crawl run each distinct URL produces at most one PageResult
— the URLs of the result log are pairwise distinct — and a dequeued URL that
is already in the visited set is discarded with no effect other than removing
it from the frontier (no fetch, no visited-set insertion, no appended
result). -/
theorem crawl_no_duplicate_page_results (fetch : Str → PageResult)
    (max_depth max_pages fuel : ℕ) (seed_url : Str) (delay : ℚ) :
    ((crawl fetch max_depth max_pages fuel seed_url delay).crawled_data.map
      CrawlRecord.url).Nodup ∧
    (∀ (s : CrawlState) (url : Str) (depth : ℕ) (rest : List (Str × ℕ)),
      s.url_queue = (url, depth) :: rest → s.pages_crawled < max_pages →
      url ∈ s.visited_urls →
      crawl_loop fetch max_depth max_pages (fuel + 1) s =
        crawl_loop fetch max_depth max_pages fuel { s with url_queue := rest }) := by
  constructor
  · simp only [crawl]
    exact (crawl_loop_nodup fetch max_depth max_pages fuel _ (by simp) (by simp)).1
  · intro s url depth rest hq hp hv
    obtain ⟨q, v, c, p, cf, b⟩ := s
    simp only at hq hp hv
    subst hq
    simp only [crawl_loop]
    rw [if_neg (Nat.not_le.mpr hp), if_pos hv]

/-- Witness for C1: discarding an already-visited frontier head. -/
theorem crawl_no_duplicate_witness :
    crawl_loop fetchOk 1 5 (3 + 1) ⟨[(("a").toList, 0)], [("a").toList], [], 0, 0, 1⟩ =
      crawl_loop fetchOk 1 5 3 ⟨[], [("a").toList], [], 0, 0, 1⟩ :=
  (crawl_no_duplicate_page_results fetchOk 1 5 3 ("a").toList 1).2
    ⟨[(("a").toList, 0)], [("a").toList], [], 0, 0, 1⟩ ("a").toList 0 [] rfl
    (by decide) (by decide)

/-- Auxiliary: the crawl loop preserves, for any fuel, the invariant that
every result-log entry was dequeued at a depth not exceeding `max_depth`. -/
theorem crawl_loop_depth_le (fetch : Str → PageResult) (max_depth max_pages : ℕ)
    (fuel : ℕ) :
    ∀ s : CrawlState, (∀ r ∈ s.crawled_data, r.depth ≤ max_depth) →
      ∀ r ∈ (crawl_loop fetch max_depth max_pages fuel s).crawled_data,
        r.depth ≤ max_depth := by
  induction fuel with
  | zero =>
    intro s h1
    exact h1
  | succ fuel ih =>
    intro s h1
    obtain ⟨q, v, c, p, cf, b⟩ := s
    cases q with
    | nil => exact h1
    | cons hd tl =>
      obtain ⟨u, d⟩ := hd
      simp only at h1
      have hstep : ∀ r ∈ c ++ [(⟨u, d, fetch u⟩ : CrawlRecord)], ¬ max_depth < d →
          r.depth ≤ max_depth := by
        intro r hr hdep
        rcases List.mem_append.mp hr with hr | hr
        · exact h1 r hr
        · rw [List.mem_singleton.mp hr]
          exact Nat.not_lt.mp hdep
      simp only [crawl_loop, adjust429]
      split_ifs with hpg hvis hdep
      all_goals first
        | exact h1
        | exact ih _ h1
        | exact fun r hr => hstep r hr hdep
        | exact ih _ (fun r hr => hstep r hr hdep)

/-- C2: in every crawl run with depth budget `max_depth`, no result-log entry
comes from a frontier entry whose depth exceeds `max_depth`, and a dequeued
pair whose depth exceeds `max_depth` is discarded at dequeue time with no
side effects — the loop continues on the popped frontier with the visited
set, result log and page count untouched. -/
theorem crawl_depth_bound (fetch : Str → PageResult) (max_depth max_pages fuel : ℕ)
    (seed_url : Str) (delay : ℚ) :
    (∀ r ∈ (crawl fetch max_depth max_pages fuel seed_url delay).crawled_data,
      r.depth ≤ max_depth) ∧
    (∀ (s : CrawlState) (url : Str) (depth : ℕ) (rest : List (Str × ℕ)),
      s.url_queue = (url, depth) :: rest → s.pages_crawled < max_pages →
      max_depth < depth →
      crawl_loop fetch max_depth max_pages (fuel + 1) s =
        crawl_loop fetch max_depth max_pages fuel { s with url_queue := rest }) := by
  constructor
  · simp only [crawl]
    exact crawl_loop_depth_le fetch max_depth max_pages fuel _ (by simp)
  · intro s url depth rest hq hp hd
    obtain ⟨q, v, c, p, cf, b⟩ := s
    simp only at hq hp
    subst hq
    simp only [crawl_loop]
    rw [if_neg (Nat.not_le.mpr hp)]
    by_cases hv : url ∈ v
    · rw [if_pos hv]
    · rw [if_neg hv, if_pos hd]

/-- Witness for C2: an over-depth frontier head is discarded without a fetch
or an appended result. -/
theorem crawl_depth_bound_witness :
    crawl_loop fetchOk 1 5 (3 + 1) ⟨[(("a").toList, 2)], [], [], 0, 0, 1⟩ =
      crawl_loop fetchOk 1 5 3 ⟨[], [], [], 0, 0, 1⟩ :=
  (crawl_depth_bound fetchOk 1 5 3 ("a").toList 1).2
    ⟨[(("a").toList, 2)], [], [], 0, 0, 1⟩ ("a").toList 2 [] rfl (by decide) (by decide)

/-- C3: when the dequeued URL is fetchable (unvisited, within depth and page
budget) and its fetch fails while nine failures are already consecutive — so
the appended result is the tenth consecutive failure — the loop stops
immediately and returns the partial result log, no matter how much frontier
or page budget remains; when the fetch succeeds, the loop continues with the
consecutive-failure counter reset to zero. -/
theorem crawl_consecutive_failure_abort (fetch : Str → PageResult)
    (max_depth max_pages fuel : ℕ) (s : CrawlState) (url : Str) (depth : ℕ)
    (rest : List (Str × ℕ))
    (hq : s.url_queue = (url, depth) :: rest)
    (hp : s.pages_crawled < max_pages)
    (hv : url ∉ s.visited_urls)
    (hd : depth ≤ max_depth) :
    ((fetch url).error = true → 9 ≤ s.consecutive_failures →
      crawl_loop fetch max_depth max_pages (fuel + 1) s =
        { url_queue := rest
          visited_urls := url :: s.visited_urls
          crawled_data := s.crawled_data ++ [⟨url, depth, fetch url⟩]
          pages_crawled := s.pages_crawled + 1
          consecutive_failures := s.consecutive_failures + 1
          base_delay := s.base_delay }) ∧
    ((fetch url).error = false →
      ∃ s' : CrawlState,
        crawl_loop fetch max_depth max_pages (fuel + 1) s =
          crawl_loop fetch max_depth max_pages fuel s' ∧
        s'.consecutive_failures = 0 ∧
        s'.crawled_data = s.crawled_data ++ [⟨url, depth, fetch url⟩]) := by
  obtain ⟨q, v, c, p, cf, b⟩ := s
  simp only at hq hp hv ⊢
  subst hq
  constructor
  · intro herr hcf
    simp only [crawl_loop]
    rw [if_neg (Nat.not_le.mpr hp), if_neg hv, if_neg (Nat.not_lt.mpr hd)]
    simp only [herr, if_true]
    rw [if_pos (show 10 ≤ cf + 1 by omega)]
  · intro herr
    simp only [crawl_loop]
    rw [if_neg (Nat.not_le.mpr hp), if_neg hv, if_neg (Nat.not_lt.mpr hd)]
    simp only [herr, Bool.false_eq_true, if_false]
    refine ⟨_, rfl, ?_, ?_⟩
    · simp only [adjust429]
      split_ifs <;> rfl
    · simp only [adjust429]
      split_ifs <;> rfl

/-- Witness for C3: a tenth consecutive failure stops the loop with frontier
remaining and the page budget unspent. -/
theorem crawl_failure_abort_witness :
    crawl_loop fetchFail 3 100 (5 + 1)
        ⟨[(("a").toList, 0), (("b").toList, 0)], [], [], 0, 9, 1⟩ =
      { url_queue := [(("b").toList, 0)]
        visited_urls := [("a").toList]
        crawled_data := [⟨("a").toList, 0, fetchFail ("a").toList⟩]
        pages_crawled := 1
        consecutive_failures := 10
        base_delay := 1 } :=
  (crawl_consecutive_failure_abort fetchFail 3 100 5
    ⟨[(("a").toList, 0), (("b").toList, 0)], [], [], 0, 9, 1⟩ ("a").toList 0
    [(("b").toList, 0)] rfl (by decide) (by decide) (by decide)).1 rfl (by decide)

end Webcrawler
